import Mathlib

/-!
Shallow embedding of the widget-state core of the `conrod` repository:
the `Rectangle` primitive (src/widget/primitive/shape/rectangle.rs) and the
`FileNavigator` composite widget (src/widget/file_navigator/mod.rs), together
with the collaborator interfaces those widgets rely on (identity registry,
capture state, filesystem listing), modelled from the specification where
their source is not part of this corpus.

Scalars (`f64` in the source) are embedded as rationals; node indices as
naturals; paths as strings compared by value, matching `PathBuf`'s value
equality.
-/

namespace Conrod

/-! ### Rectangle (src/widget/primitive/shape/rectangle.rs) -/

/-- `Kind`: whether the rectangle is drawn as an outline or a filled color. -/
inductive Kind
  | Outline
  | Fill
deriving DecidableEq, Repr

/-- `Color`: opaque color payload; its fields never influence the cached
`Rectangle` state, so it is embedded as an abstract one-field structure. -/
structure Color where
  rgba : ℚ × ℚ × ℚ × ℚ
deriving DecidableEq, Repr

/-- `widget::line::Style`: opaque line-style payload for outlined shapes; its
fields never influence the cached `Rectangle` state. -/
structure LineStyle where
  thickness : ℚ
deriving DecidableEq, Repr

/-- `shape::Style`: the style of a shape widget, either `Fill` with an optional
color or `Outline` with a line style (the two variants matched on in
`Rectangle::update`). -/
inductive ShapeStyle
  | Fill (color : Option Color)
  | Outline (line : LineStyle)
deriving DecidableEq, Repr

/-- Modelled from the spec: `shape::Style::fill()` builds the `Fill` variant
with no explicit color (theme default); its body is not in this corpus. -/
def ShapeStyle.fill : ShapeStyle := ShapeStyle.Fill none

/-- Modelled from the spec: `shape::Style::fill_with(color)` builds the `Fill`
variant carrying the given color; its body is not in this corpus. -/
def ShapeStyle.fill_with (color : Color) : ShapeStyle := ShapeStyle.Fill (some color)

/-- Modelled from the spec: `shape::Style::outline()` builds the `Outline`
variant with the default line style; its body is not in this corpus. -/
def ShapeStyle.outline : ShapeStyle := ShapeStyle.Outline { thickness := 1 }

/-- Modelled from the spec: `shape::Style::outline_styled(line_style)` builds
the `Outline` variant carrying the given line style; its body is not in this
corpus. -/
def ShapeStyle.outline_styled (line : LineStyle) : ShapeStyle := ShapeStyle.Outline line

/-- Unique state for the `Rectangle` (`State { kind }`). -/
structure RectState where
  kind : Kind
deriving DecidableEq, Repr

/-- The `Rectangle` builder: common builder data is irrelevant to state logic
and elided; the dimensions and style fields are kept. -/
structure Rectangle where
  dim : ℚ × ℚ
  style : ShapeStyle
deriving DecidableEq, Repr

/-- `Rectangle::styled(dim, style)`. -/
def Rectangle.styled (dim : ℚ × ℚ) (style : ShapeStyle) : Rectangle :=
  { dim := dim, style := style }

/-- `Rectangle::fill(dim)`. -/
def Rectangle.fill (dim : ℚ × ℚ) : Rectangle :=
  Rectangle.styled dim ShapeStyle.fill

/-- `Rectangle::fill_with(dim, color)`. -/
def Rectangle.fill_with (dim : ℚ × ℚ) (color : Color) : Rectangle :=
  Rectangle.styled dim (ShapeStyle.fill_with color)

/-- `Rectangle::outline(dim)`. -/
def Rectangle.outline (dim : ℚ × ℚ) : Rectangle :=
  Rectangle.styled dim ShapeStyle.outline

/-- `Rectangle::outline_styled(dim, line_style)`. -/
def Rectangle.outline_styled (dim : ℚ × ℚ) (line : LineStyle) : Rectangle :=
  Rectangle.styled dim (ShapeStyle.outline_styled line)

/-- `Rectangle::init_state`: ignores the builder entirely and always returns
`State { kind: Kind::Fill }`. -/
def Rectangle.init_state (_self : Rectangle) : RectState :=
  { kind := Kind.Fill }

/-- The `kind` computed from the current style at the top of
`Rectangle::update`. -/
def kindOfStyle : ShapeStyle → Kind
  | ShapeStyle.Fill _ => Kind.Fill
  | ShapeStyle.Outline _ => Kind.Outline

/-- `Rectangle::update`: recomputes `kind` from the style and calls
`state.update` (mutating the cached state and marking it changed, which sets
the node's redraw flag) exactly when `state.kind != kind`.  Returns the
resulting cached state together with whether `state.update` was invoked. -/
def Rectangle.update (state : RectState) (style : ShapeStyle) : RectState × Bool :=
  let kind := kindOfStyle style
  if state.kind ≠ kind then ({ kind := kind }, true) else (state, false)

/-! ### FileNavigator data model (src/widget/file_navigator/mod.rs) -/

/-- Paths (`std::path::PathBuf`) compared by value. -/
abbrev Path := String

/-- `Directory`: the state for a single directory in the stack
(`{ path, column_width }`). -/
structure Directory where
  path : Path
  column_width : ℚ
deriving DecidableEq, Repr

/-- `State`: unique state stored in the widget graph for each `FileNavigator`.
The two `IndexSlot` fields are lazily allocated node indices (`None` until
first use). -/
structure NavState where
  scrollable_canvas_idx : Option ℕ
  scrollbar_idx : Option ℕ
  starting_directory : Path
  directory_stack : List Directory
  directory_view_indices : List (ℕ × ℕ)
deriving DecidableEq, Repr

/-- `FileNavigator::init_state`: fresh `IndexSlot`s, an empty
`starting_directory` (`PathBuf::new()`), and empty stack and index vectors. -/
def FileNavigator.init_state : NavState :=
  { scrollable_canvas_idx := none
  , scrollbar_idx := none
  , starting_directory := ""
  , directory_stack := []
  , directory_view_indices := [] }

/-- The style's `column_width` attribute resolved to a value: the explicitly
set width when present, otherwise the default `250.0` (the `widget_style!`
theme lookup, whose source is outside this corpus, falls through to this
default). -/
def resolveColumnWidth (styleColumnWidth : Option ℚ) : ℚ :=
  styleColumnWidth.getD 250

/-- The first block of `FileNavigator::update`: when the declared
`starting_directory` differs by value from the cached one, reset the cached
starting directory, clear the directory stack, and push a single `Directory`
for the declared path with the resolved `column_width`. -/
def resetIfNewStart (starting_directory : Path) (column_width : ℚ)
    (state : NavState) : NavState :=
  if starting_directory ≠ state.starting_directory then
    { state with
        starting_directory := starting_directory
      , directory_stack := [{ path := starting_directory, column_width := column_width }] }
  else state

/-! ### Node-index allocation for the directory stack (C2)

`FileNavigator::update` walks the directory stack with `i`; at each position
it reuses `directory_view_indices[i]` when present and otherwise allocates two
fresh node indices from the `Ui` and pushes the pair. -/

/-- Modelled from the spec: `Ui::new_unique_node_index` allocates a fresh node
index from a monotonic counter owned by the graph; ids are never reused in the
graph's lifetime.  Its source is outside this corpus.  Returns the issued
index and the advanced counter. -/
def new_unique_node_index (counter : ℕ) : ℕ × ℕ :=
  (counter, counter + 1)

/-- One iteration's index lookup in `FileNavigator::update`:
`state.directory_view_indices.get(i)` when present, otherwise two fresh
indices are allocated and the pair is pushed onto the vector. -/
def getOrAllocIndices (i : ℕ) (indices : List (ℕ × ℕ)) (counter : ℕ) :
    (ℕ × ℕ) × List (ℕ × ℕ) × ℕ :=
  match indices.get? i with
  | some p => (p, indices, counter)
  | none =>
    let (view_idx, c1) := new_unique_node_index counter
    let (resize_idx, c2) := new_unique_node_index c1
    ((view_idx, resize_idx), indices ++ [(view_idx, resize_idx)], c2)

/-- The `while i < state.directory_stack.len()` loop of
`FileNavigator::update`, restricted to its effect on `directory_view_indices`
and the `Ui` index counter: `fuel` is the number of remaining iterations and
`i` the current stack position. -/
def allocFrameAux : ℕ → ℕ → List (ℕ × ℕ) → ℕ → List (ℕ × ℕ) × ℕ
  | 0, _, indices, c => (indices, c)
  | fuel + 1, i, indices, c =>
    let r := getOrAllocIndices i indices c
    allocFrameAux fuel (i + 1) r.2.1 r.2.2

/-- One frame's effect of `FileNavigator::update` on `directory_view_indices`:
iterate the loop for every position of the directory stack of length
`stackLen`. -/
def allocFrame (stackLen : ℕ) (indices : List (ℕ × ℕ)) (c : ℕ) :
    List (ℕ × ℕ) × ℕ :=
  allocFrameAux stackLen 0 indices c

/-- The consecutive pairs of fresh indices issued from counter `c`:
`(c, c+1), (c+2, c+3), ...`. -/
def pairsFrom : ℕ → ℕ → List (ℕ × ℕ)
  | _, 0 => []
  | c, k + 1 => (c, c + 1) :: pairsFrom (c + 2) k

/-- All node indices occurring in a list of index pairs, in order. -/
def flatIndices : List (ℕ × ℕ) → List ℕ
  | [] => []
  | p :: rest => p.1 :: p.2 :: flatIndices rest

/-- The effect on `directory_view_indices` and the index counter of a whole
sequence of `FileNavigator::update` calls, the directory stack having length
`n` on the frame declared by each list entry `n`. -/
def allocFrames : List ℕ → List (ℕ × ℕ) × ℕ → List (ℕ × ℕ) × ℕ
  | [], st => st
  | n :: ns, st => allocFrames ns (allocFrame n st.1 st.2)

/-! ### Resize-handle drags and scrolling (src/widget/file_navigator/mod.rs) -/

/-- One left-button drag delivered to a resize handle; only the horizontal
component `delta_xy[0]` is consumed by `FileNavigator::update`. -/
structure Drag where
  delta_x : ℚ
deriving DecidableEq, Repr

/-- The per-frame geometry consulted by the resize-drag loop: the resize
handle's resolved rectangle (width and right edge) and the `FileNavigator`'s
own rectangle's right edge and width. -/
structure DragCtx where
  resize_rect_w : ℚ
  resize_rect_right : ℚ
  rect_right : ℚ
  rect_w : ℚ
deriving DecidableEq, Repr

/-- The body of `for drag in ui.widget_input(resize_idx).drags().left()`:
given the accumulated `(column_width, scroll_x)`, compute the target width,
clamp the stored width from below by three handle widths, and accumulate the
overshoot past the navigator's right edge into `scroll_x`. -/
def dragStep (ctx : DragCtx) (acc : ℚ × ℚ) (drag : Drag) : ℚ × ℚ :=
  let column_width := acc.1
  let scroll_x := acc.2
  let target_w := column_width + drag.delta_x
  let min_w := ctx.resize_rect_w * 3
  let end_w := column_width + (ctx.rect_right - ctx.resize_rect_right)
  let column_width' := max min_w target_w
  let scroll_x' := if target_w > end_w then scroll_x + (target_w - end_w) else scroll_x
  (column_width', scroll_x')

/-- The whole drag loop of one frame: fold `dragStep` over the frame's drags
starting from the stored column width and `scroll_x = 0.0`. -/
def processDrags (ctx : DragCtx) (column_width : ℚ) (drags : List Drag) : ℚ × ℚ :=
  drags.foldl (dragStep ctx) (column_width, 0)

/-- After the drag loop, `ui.scroll_widget` is invoked (with offset
`[-scroll_x, 0.0]`) exactly when `scroll_x > 0.0`; `none` means no scroll
request is issued. -/
def scrollAfterDrags (ctx : DragCtx) (column_width : ℚ) (drags : List Drag) :
    Option ℚ :=
  let scroll_x := (processDrags ctx column_width drags).2
  if scroll_x > 0 then some scroll_x else none

/-- Modelled from the spec: `Ui::scroll_widget` (outside this corpus) applies
a requested scroll offset clamped to the scrollable range `[lo, hi]`. -/
def scroll_widget (offset lo hi : ℚ) : ℚ :=
  min hi (max lo offset)

/-- The total width of all directory columns,
`state.directory_stack.iter().fold(0.0, |t, d| t + d.column_width)`. -/
def totalColumnWidth (stack : List Directory) : ℚ :=
  stack.foldl (fun t d => t + d.column_width) 0

/-- On entering a directory, `FileNavigator::update` scrolls the canvas by the
amount the total column width exceeds the navigator's own width, and only
when that overlap is positive; `none` means no scroll request is issued. -/
def enterDirScroll (stack : List Directory) (rect_w : ℚ) : Option ℚ :=
  let total_w := totalColumnWidth stack
  let overlap := total_w - rect_w
  if overlap > 0 then some overlap else none

/-! ### Identity registry (spec §4.1; source outside this corpus) -/

/-- Modelled from the spec: the Identity Registry's per-frame resolution
state — the keys already resolved this frame with their ids, the monotonic
id counter, and the nodes created so far. -/
structure Registry where
  resolved : List (String × ℕ)
  next_id : ℕ
  nodes : List ℕ
deriving DecidableEq, Repr

/-- Modelled from the spec: `resolve(explicit_or_generated_key) -> WidgetId`
returns the id already issued for the key this frame when present; otherwise
it allocates a fresh id from the monotonic counter, records the key, and
creates the node. -/
def resolve (key : String) (r : Registry) : ℕ × Registry :=
  match r.resolved.lookup key with
  | some id => (id, r)
  | none =>
    (r.next_id,
     { resolved := (key, r.next_id) :: r.resolved
     , next_id := r.next_id + 1
     , nodes := r.nodes ++ [r.next_id] })

/-! ### Capture state (spec §3, §4.4; source outside this corpus) -/

/-- Modelled from the spec: the graph-wide capture state — at most one node
(an optional holder) per device. -/
structure CaptureState where
  mouse : Option ℕ
  keyboard : Option ℕ
deriving DecidableEq, Repr

/-- Modelled from the spec: a node requesting mouse capture becomes the
holder; a request while another node holds capture is a silent pre-emption,
not an error. -/
def requestMouseCapture (b : ℕ) (s : CaptureState) : CaptureState :=
  { s with mouse := some b }

/-- Modelled from the spec: releasing mouse capture leaves no holder. -/
def releaseMouseCapture (s : CaptureState) : CaptureState :=
  { s with mouse := none }

/-- Modelled from the spec: a node requesting keyboard capture becomes the
holder, pre-empting any previous holder. -/
def requestKeyboardCapture (b : ℕ) (s : CaptureState) : CaptureState :=
  { s with keyboard := some b }

/-- Modelled from the spec: pointer events route to the capture holder when
one exists, regardless of position, and otherwise to the topmost node under
the pointer. -/
def routePointerEvent (s : CaptureState) (topmost : ℕ) : ℕ :=
  match s.mouse with
  | some holder => holder
  | none => topmost

/-- The set of nodes currently holding mouse capture (as a list, to speak
about its size). -/
def mouseHolders (s : CaptureState) : List ℕ :=
  s.mouse.toList

/-- The set of nodes currently holding keyboard capture. -/
def keyboardHolders (s : CaptureState) : List ℕ :=
  s.keyboard.toList

/-! ### Filesystem listing (spec §6; `directory_view.rs` outside this corpus) -/

/-- A directory entry as supplied by the filesystem collaborator:
name, is-directory flag, hidden flag. -/
structure Entry where
  name : String
  is_directory : Bool
  hidden : Bool
deriving DecidableEq, Repr

/-- A filesystem access failure. -/
inductive FsError
  | PermissionDenied
  | PathRemoved
deriving DecidableEq, Repr

/-- The raw filesystem collaborator: listing a directory either succeeds with
its entries or fails. -/
def Fs : Type := Path → Except FsError (List Entry)

/-- The listing a `DirectoryView` presents, together with the error indicator
surfaced through the widget's own output. -/
structure Listing where
  entries : List Entry
  error : Option FsError
deriving DecidableEq, Repr

/-- Modelled from the spec: the `DirectoryView`'s directory read (in
`directory_view.rs`, outside this corpus) degrades a filesystem failure into
an empty listing plus an error indicator; it is a total function, so a
failure never aborts the frame. -/
def read_directory (fs : Fs) (p : Path) : Listing :=
  match fs p with
  | Except.ok entries => { entries := entries, error := none }
  | Except.error e => { entries := [], error := some e }

/-! ### DirectoryView event processing (src/widget/file_navigator/mod.rs) -/

/-- The events a `DirectoryView` may emit (its interaction payloads —
`event::Click` and friends — do not influence `FileNavigator`'s state and are
elided; the key inspection in the `Press` arm of `FileNavigator::update` is a
no-op, both of its arms being TODO comments). -/
inductive DVEvent
  | Selection (paths : List Path)
  | Click (paths : List Path)
  | DoubleClick (paths : List Path)
  | Press (paths : List Path)
  | Release (paths : List Path)
deriving DecidableEq, Repr

/-- The `FileNavigator` events relevant to the update loop (payloads of the
propagated interaction events elided as above). -/
inductive NavEvent
  | ChangeDirectory (path : Path)
  | ChangeSelection (paths : List Path)
  | Click (paths : List Path)
  | DoubleClick (paths : List Path)
  | Press (paths : List Path)
  | Release (paths : List Path)
deriving DecidableEq, Repr

/-- The local `Action` enum of `FileNavigator::update`. -/
inductive Action
  | EnterDir (path : Path)
  | ExitDir
deriving DecidableEq, Repr

/-- The `Selection` arm's classification: a single selected path that is a
directory is entered; any other selection exits back to this column.
`is_dir` is the filesystem collaborator's `Path::is_dir`. -/
def selectionAction (is_dir : Path → Bool) (paths : List Path) : Action :=
  match paths with
  | [path] => if is_dir path then Action.EnterDir path else Action.ExitDir
  | _ => Action.ExitDir

/-- One iteration of the `for event in DirectoryView::new(...).set(...)` loop:
each `DirectoryView` event pushes exactly one `FileNavigator` event, and a
`Selection` additionally records the pending action. -/
def processEvent (is_dir : Path → Bool) (acc : Option Action × List NavEvent)
    (e : DVEvent) : Option Action × List NavEvent :=
  match e with
  | DVEvent.Selection paths =>
    (some (selectionAction is_dir paths), acc.2 ++ [NavEvent.ChangeSelection paths])
  | DVEvent.Click paths => (acc.1, acc.2 ++ [NavEvent.Click paths])
  | DVEvent.DoubleClick paths => (acc.1, acc.2 ++ [NavEvent.DoubleClick paths])
  | DVEvent.Press paths => (acc.1, acc.2 ++ [NavEvent.Press paths])
  | DVEvent.Release paths => (acc.1, acc.2 ++ [NavEvent.Release paths])

/-- The `FileNavigator` event each `DirectoryView` event pushes. -/
def dvToNav : DVEvent → NavEvent
  | DVEvent.Selection paths => NavEvent.ChangeSelection paths
  | DVEvent.Click paths => NavEvent.Click paths
  | DVEvent.DoubleClick paths => NavEvent.DoubleClick paths
  | DVEvent.Press paths => NavEvent.Press paths
  | DVEvent.Release paths => NavEvent.Release paths

/-- The path lists of the `Selection` events in a `DirectoryView` event
stream. -/
def selections : List DVEvent → List (List Path)
  | [] => []
  | DVEvent.Selection paths :: rest => paths :: selections rest
  | _ :: rest => selections rest

/-- `state.directory_stack.pop()` iterated `n` times. -/
def popN : ℕ → List Directory → List Directory
  | 0, stack => stack
  | n + 1, stack => popN n stack.dropLast

/-- The `match maybe_action` block at stack position `i`: entering a
directory pops the stack down to position `i`, pushes the new directory with
the current column width, and emits `ChangeDirectory`; exiting pops the stack
down to position `i`. -/
def applyAction (i : ℕ) (column_width : ℚ) (stack : List Directory)
    (events : List NavEvent) : Option Action → List Directory × List NavEvent
  | some (Action.EnterDir path) =>
    (popN (stack.length - 1 - i) stack ++ [{ path := path, column_width := column_width }],
     events ++ [NavEvent.ChangeDirectory path])
  | some Action.ExitDir => (popN (stack.length - 1 - i) stack, events)
  | none => (stack, events)

/-- Processing of the `DirectoryView` at stack position `i` within one frame:
fold the event loop, then apply the recorded action to the directory stack. -/
def processView (is_dir : Path → Bool) (i : ℕ) (column_width : ℚ)
    (stack : List Directory) (events0 : List NavEvent) (dvEvents : List DVEvent) :
    List Directory × List NavEvent :=
  let r := dvEvents.foldl (processEvent is_dir) (none, events0)
  applyAction i column_width stack r.2 r.1

/-- The cross-frame invariant for the `FileNavigator`'s generated node
indices: all issued indices are pairwise distinct and lie below the `Ui`'s
monotonic counter. -/
def IndicesInv (st : List (ℕ × ℕ) × ℕ) : Prop :=
  (flatIndices st.1).Nodup ∧ ∀ x ∈ flatIndices st.1, x < st.2

/-! ### Supporting lemmas -/

theorem flatIndices_append (a b : List (ℕ × ℕ)) :
    flatIndices (a ++ b) = flatIndices a ++ flatIndices b := by
  induction a with
  | nil => rfl
  | cons p rest ih => simp [flatIndices, ih]

theorem allocFrameAux_spec : ∀ (fuel i : ℕ) (indices : List (ℕ × ℕ)) (c : ℕ),
    i ≤ indices.length →
    ∃ k, allocFrameAux fuel i indices c = (indices ++ pairsFrom c k, c + 2 * k) := by
  intro fuel
  induction fuel with
  | zero =>
    intro i indices c _
    exact ⟨0, by simp [allocFrameAux, pairsFrom]⟩
  | succ fuel ih =>
    intro i indices c hi
    by_cases h : i < indices.length
    · have hp : indices[i]? = some indices[i] := List.getElem?_eq_getElem h
      have step : allocFrameAux (fuel + 1) i indices c
          = allocFrameAux fuel (i + 1) indices c := by
        simp [allocFrameAux, getOrAllocIndices, hp]
      rw [step]
      exact ih (i + 1) indices c h
    · have hnone : indices[i]? = none := by
        rw [List.getElem?_eq_none_iff]
        omega
      have step : allocFrameAux (fuel + 1) i indices c
          = allocFrameAux fuel (i + 1) (indices ++ [(c, c + 1)]) (c + 2) := by
        simp [allocFrameAux, getOrAllocIndices, hnone, new_unique_node_index]
      rw [step]
      have hlen : i + 1 ≤ (indices ++ [(c, c + 1)]).length := by
        simp
        omega
      obtain ⟨k, hk⟩ := ih (i + 1) (indices ++ [(c, c + 1)]) (c + 2) hlen
      refine ⟨k + 1, ?_⟩
      rw [hk]
      rw [List.append_assoc]
      have : pairsFrom c (k + 1) = (c, c + 1) :: pairsFrom (c + 2) k := rfl
      rw [this]
      simp [Prod.ext_iff]
      omega

theorem allocFrame_spec (n : ℕ) (indices : List (ℕ × ℕ)) (c : ℕ) :
    ∃ k, allocFrame n indices c = (indices ++ pairsFrom c k, c + 2 * k) :=
  allocFrameAux_spec n 0 indices c (Nat.zero_le _)

theorem flatIndices_pairsFrom_bounds : ∀ (k c x : ℕ),
    x ∈ flatIndices (pairsFrom c k) → c ≤ x ∧ x < c + 2 * k := by
  intro k
  induction k with
  | zero => intro c x hx; simp [pairsFrom, flatIndices] at hx
  | succ k ih =>
    intro c x hx
    simp only [pairsFrom, flatIndices, List.mem_cons] at hx
    rcases hx with rfl | rfl | hx
    · omega
    · omega
    · have := ih (c + 2) x hx
      omega

theorem flatIndices_pairsFrom_nodup : ∀ (k c : ℕ),
    (flatIndices (pairsFrom c k)).Nodup := by
  intro k
  induction k with
  | zero => intro c; simp [pairsFrom, flatIndices]
  | succ k ih =>
    intro c
    simp only [pairsFrom, flatIndices, List.nodup_cons, List.mem_cons]
    refine ⟨?_, ?_, ih (c + 2)⟩
    · rintro (h | h)
      · omega
      · have := flatIndices_pairsFrom_bounds k (c + 2) c h
        omega
    · intro h
      have := flatIndices_pairsFrom_bounds k (c + 2) (c + 1) h
      omega

theorem allocFrame_preserves_inv (n : ℕ) (indices : List (ℕ × ℕ)) (c : ℕ)
    (h : IndicesInv (indices, c)) : IndicesInv (allocFrame n indices c) := by
  obtain ⟨k, hk⟩ := allocFrame_spec n indices c
  rw [hk]
  obtain ⟨hnd, hlt⟩ := h
  constructor
  · rw [flatIndices_append]
    refine List.Nodup.append hnd (flatIndices_pairsFrom_nodup k c) ?_
    intro x hx hx'
    have h1 := hlt x hx
    have h2 := (flatIndices_pairsFrom_bounds k c x hx').1
    omega
  · intro x hx
    rw [flatIndices_append, List.mem_append] at hx
    rcases hx with hx | hx
    · have := hlt x hx
      omega
    · exact (flatIndices_pairsFrom_bounds k c x hx).2

theorem allocFrames_preserves_inv : ∀ (ns : List ℕ) (st : List (ℕ × ℕ) × ℕ),
    IndicesInv st → IndicesInv (allocFrames ns st) := by
  intro ns
  induction ns with
  | nil => intro st h; exact h
  | cons n ns ih =>
    intro st h
    exact ih _ (allocFrame_preserves_inv n st.1 st.2 h)

theorem allocFrame_grows (n : ℕ) (indices : List (ℕ × ℕ)) (c : ℕ) :
    indices <+: (allocFrame n indices c).1 := by
  obtain ⟨k, hk⟩ := allocFrame_spec n indices c
  rw [hk]
  exact ⟨pairsFrom c k, rfl⟩

theorem allocFrames_grows : ∀ (ns : List ℕ) (st : List (ℕ × ℕ) × ℕ),
    st.1 <+: (allocFrames ns st).1 := by
  intro ns
  induction ns with
  | nil => intro st; exact List.prefix_rfl
  | cons n ns ih =>
    intro st
    exact (allocFrame_grows n st.1 st.2).trans (ih _)

theorem dragStep_scroll (ctx : DragCtx) (cw sx : ℚ) (d : Drag) :
    (dragStep ctx (cw, sx) d).2
      = sx + max 0 (d.delta_x - (ctx.rect_right - ctx.resize_rect_right)) := by
  unfold dragStep
  by_cases h : cw + d.delta_x > cw + (ctx.rect_right - ctx.resize_rect_right)
  · simp only [h, if_pos]
    have h2 : d.delta_x - (ctx.rect_right - ctx.resize_rect_right) > 0 := by linarith
    rw [max_eq_right (le_of_lt h2)]
    ring
  · simp only [h, if_neg, not_false_iff]
    have h2 : d.delta_x - (ctx.rect_right - ctx.resize_rect_right) ≤ 0 := by
      push_neg at h
      linarith
    rw [max_eq_left h2]
    ring

theorem dragStep_width (ctx : DragCtx) (acc : ℚ × ℚ) (d : Drag) :
    (dragStep ctx acc d).1 = max (ctx.resize_rect_w * 3) (acc.1 + d.delta_x) := rfl

theorem dragStep_width_lb (ctx : DragCtx) (acc : ℚ × ℚ) (d : Drag) :
    ctx.resize_rect_w * 3 ≤ (dragStep ctx acc d).1 := by
  rw [dragStep_width]
  exact le_max_left _ _

theorem foldl_dragStep_width_lb : ∀ (drags : List Drag) (ctx : DragCtx) (st : ℚ × ℚ),
    ctx.resize_rect_w * 3 ≤ st.1 →
    ctx.resize_rect_w * 3 ≤ (drags.foldl (dragStep ctx) st).1 := by
  intro drags
  induction drags with
  | nil => intro ctx st h; exact h
  | cons d ds ih =>
    intro ctx st _
    exact ih ctx (dragStep ctx st d) (dragStep_width_lb ctx st d)

theorem foldl_dragStep_no_overlap :
    ∀ (drags : List Drag) (ctx : DragCtx) (cw : ℚ),
    (∀ d ∈ drags, d.delta_x ≤ ctx.rect_right - ctx.resize_rect_right) →
    (drags.foldl (dragStep ctx) (cw, 0)).2 = 0 := by
  intro drags
  induction drags with
  | nil => intro ctx cw _; rfl
  | cons d ds ih =>
    intro ctx cw h
    have hd := h d (List.mem_cons_self d ds)
    have hstep : dragStep ctx (cw, 0) d
        = (max (ctx.resize_rect_w * 3) (cw + d.delta_x), 0) := by
      have h2 := dragStep_scroll ctx cw 0 d
      have h3 : max 0 (d.delta_x - (ctx.rect_right - ctx.resize_rect_right)) = 0 :=
        max_eq_left (by linarith)
      have h4 : (dragStep ctx (cw, 0) d).2 = 0 := by rw [h2, h3]; ring
      have h5 := dragStep_width ctx (cw, 0) d
      exact Prod.ext h5 h4
    rw [List.foldl_cons, hstep]
    exact ih ctx _ (fun x hx => h x (List.mem_cons_of_mem d hx))

theorem processEvent_fold_events :
    ∀ (es : List DVEvent) (is_dir : Path → Bool) (a0 : Option Action)
      (ev0 : List NavEvent),
    (es.foldl (processEvent is_dir) (a0, ev0)).2 = ev0 ++ es.map dvToNav := by
  intro es is_dir
  induction es with
  | nil => intro a0 ev0; simp
  | cons e rest ih =>
    intro a0 ev0
    cases e <;> simp [List.foldl_cons, processEvent, dvToNav, ih]

theorem processEvent_fold_action_nil :
    ∀ (es : List DVEvent) (is_dir : Path → Bool) (a0 : Option Action)
      (ev0 : List NavEvent),
    selections es = [] → (es.foldl (processEvent is_dir) (a0, ev0)).1 = a0 := by
  intro es is_dir
  induction es with
  | nil => intro a0 ev0 _; rfl
  | cons e rest ih =>
    intro a0 ev0 h
    cases e with
    | Selection paths => simp [selections] at h
    | Click paths => exact ih a0 _ h
    | DoubleClick paths => exact ih a0 _ h
    | Press paths => exact ih a0 _ h
    | Release paths => exact ih a0 _ h

theorem processEvent_fold_action_single :
    ∀ (es : List DVEvent) (is_dir : Path → Bool) (a0 : Option Action)
      (ev0 : List NavEvent) (paths : List Path),
    selections es = [paths] →
    (es.foldl (processEvent is_dir) (a0, ev0)).1
      = some (selectionAction is_dir paths) := by
  intro es is_dir
  induction es with
  | nil => intro a0 ev0 paths h; simp [selections] at h
  | cons e rest ih =>
    intro a0 ev0 paths h
    cases e with
    | Selection ps =>
      simp only [selections, List.cons.injEq] at h
      obtain ⟨rfl, hrest⟩ := h
      exact processEvent_fold_action_nil rest is_dir _ _ hrest
    | Click ps => exact ih _ _ paths h
    | DoubleClick ps => exact ih _ _ paths h
    | Press ps => exact ih _ _ paths h
    | Release ps => exact ih _ _ paths h

theorem mem_selections_changeSelection :
    ∀ (es : List DVEvent) (paths : List Path),
    paths ∈ selections es → NavEvent.ChangeSelection paths ∈ es.map dvToNav := by
  intro es
  induction es with
  | nil => intro paths h; simp [selections] at h
  | cons e rest ih =>
    intro paths h
    cases e with
    | Selection ps =>
      simp only [selections, List.mem_cons] at h
      rcases h with rfl | h
      · simp [dvToNav]
      · simp only [List.map_cons, List.mem_cons]
        exact Or.inr (ih paths h)
    | Click ps =>
      simp only [List.map_cons, List.mem_cons]
      exact Or.inr (ih paths h)
    | DoubleClick ps =>
      simp only [List.map_cons, List.mem_cons]
      exact Or.inr (ih paths h)
    | Press ps =>
      simp only [List.map_cons, List.mem_cons]
      exact Or.inr (ih paths h)
    | Release ps =>
      simp only [List.map_cons, List.mem_cons]
      exact Or.inr (ih paths h)

theorem dvToNav_ne_changeDirectory (e : DVEvent) (q : Path) :
    dvToNav e ≠ NavEvent.ChangeDirectory q := by
  cases e <;> simp [dvToNav]

theorem popN_eq_take : ∀ (n : ℕ) (s : List Directory),
    popN n s = s.take (s.length - n) := by
  intro n
  induction n with
  | zero => intro s; simp [popN]
  | succ n ih =>
    intro s
    rw [popN, ih]
    rw [List.dropLast_eq_take, List.length_take, List.take_take]
    congr 1
    omega

/-! ### Claims -/

/-- C1: `Rectangle::update` mutates the cached state (thereby setting the
node's redraw flag) if and only if the kind derived from the current style
(`Fill` for `Style::Fill`, `Outline` for `Style::Outline`) differs by value
from the stored state's kind; in particular, a second update with the same
style immediately after the first leaves the state unmodified. -/
theorem rectangle_update_mutates_iff_kind_differs
    (state : RectState) (style : ShapeStyle) :
    ((Rectangle.update state style).2 = true ↔ kindOfStyle style ≠ state.kind)
    ∧ Rectangle.update (Rectangle.update state style).1 style
        = ((Rectangle.update state style).1, false) := by
  by_cases h : state.kind = kindOfStyle style
  · simp [Rectangle.update, h]
  · have h' : kindOfStyle style ≠ state.kind := fun hc => h hc.symm
    simp [Rectangle.update, h, h']

/-- C10: `Rectangle::init_state` returns `kind = Kind::Fill` for every
`Rectangle`, however it was built — including `Rectangle::outline` and
`Rectangle::outline_styled` — so a rectangle built with an `Outline` style
has its state mutated (redraw flag set) on its first update, after which the
cached kind always matches the style variant. -/
theorem rectangle_init_state_always_fill :
    (∀ r : Rectangle, r.init_state = { kind := Kind.Fill })
    ∧ (∀ dim, (Rectangle.update ((Rectangle.outline dim).init_state)
          (Rectangle.outline dim).style).2 = true)
    ∧ (∀ dim line, (Rectangle.update ((Rectangle.outline_styled dim line).init_state)
          (Rectangle.outline_styled dim line).style).2 = true)
    ∧ (∀ (s : RectState) (style : ShapeStyle),
          (Rectangle.update s style).1.kind = kindOfStyle style) := by
  refine ⟨fun r => rfl, fun dim => rfl, fun dim line => rfl, fun s style => ?_⟩
  by_cases h : s.kind = kindOfStyle style <;> simp [Rectangle.update, h]

/-- C3: resolving the same explicit-or-generated key twice within one frame
returns the same `WidgetId` both times, and the second call creates no
duplicate node (the registry state is unchanged). -/
theorem resolve_idempotent_within_frame (key : String) (r : Registry) :
    (resolve key (resolve key r).2).1 = (resolve key r).1
    ∧ (resolve key (resolve key r).2).2 = (resolve key r).2 := by
  unfold resolve
  cases h : r.resolved.lookup key with
  | some id => simp [h]
  | none => simp [h, List.lookup]

/-- C7: a filesystem access failure on a directory path results in an empty
listing plus an error indicator in that widget's own output, while a
successful read lists the entries with no error; `read_directory` is a total
function, so a failure never aborts the frame. -/
theorem read_directory_error_degrades (fs : Fs) (p : Path) :
    (∀ e, fs p = Except.error e →
        read_directory fs p = { entries := [], error := some e })
    ∧ (∀ entries, fs p = Except.ok entries →
        read_directory fs p = { entries := entries, error := none }) := by
  constructor
  · intro e h
    unfold read_directory
    rw [h]
  · intro entries h
    unfold read_directory
    rw [h]

/-- Witness for C7 at a concrete failing filesystem. -/
theorem read_directory_error_degrades_witness :
    read_directory (fun _ => Except.error FsError.PermissionDenied) "d"
      = { entries := [], error := some FsError.PermissionDenied } :=
  (read_directory_error_degrades (fun _ => Except.error FsError.PermissionDenied) "d").1
    FsError.PermissionDenied rfl

/-- C6: at most one node holds mouse capture and at most one holds keyboard
capture at any instant; a capture request from node `b` while node `a` holds
capture transfers capture to `b` (pre-emption, not an error), after which `a`
receives no pointer events until it re-requests capture and is granted it. -/
theorem capture_exclusive_and_preempting (s : CaptureState) (a b top : ℕ)
    (h : a ≠ b) :
    (∀ s' : CaptureState,
        (mouseHolders s').length ≤ 1 ∧ (keyboardHolders s').length ≤ 1)
    ∧ (requestMouseCapture b (requestMouseCapture a s)).mouse = some b
    ∧ routePointerEvent (requestMouseCapture b (requestMouseCapture a s)) top ≠ a
    ∧ routePointerEvent
        (requestMouseCapture a (requestMouseCapture b (requestMouseCapture a s)))
        top = a := by
  refine ⟨?_, rfl, ?_, rfl⟩
  · intro s'
    constructor
    · cases hm : s'.mouse <;> simp [mouseHolders, hm]
    · cases hk : s'.keyboard <;> simp [keyboardHolders, hk]
  · have : routePointerEvent (requestMouseCapture b (requestMouseCapture a s)) top
        = b := rfl
    rw [this]
    exact Ne.symm h

/-- Witness for C6 at concrete nodes 0 and 1. -/
theorem capture_exclusive_and_preempting_witness :
    routePointerEvent (requestMouseCapture 0 (requestMouseCapture 1
      (requestMouseCapture 0 { mouse := none, keyboard := none }))) 5 = 0 :=
  (capture_exclusive_and_preempting { mouse := none, keyboard := none } 0 1 5
    (by decide)).2.2.2

/-- C4 counterexample: the cached default starting directory is the empty
path, so a first update declaring an *empty* starting directory finds no
difference, performs no reset, and leaves the directory stack empty rather
than a singleton — refuting "which includes the first frame" as stated. -/
theorem fileNavigator_first_frame_empty_no_reset :
    resetIfNewStart "" (resolveColumnWidth none) FileNavigator.init_state
        = FileNavigator.init_state
    ∧ (resetIfNewStart "" (resolveColumnWidth none)
        FileNavigator.init_state).directory_stack.length ≠ 1 := by
  constructor
  · simp [resetIfNewStart, FileNavigator.init_state]
  · simp [resetIfNewStart, FileNavigator.init_state]

/-- C4 (amended): initialization and later frames go through the same code
path, differing only in the default state — `init_state` stores an empty
`starting_directory` and empty `directory_stack` — and on any update call
where the declared starting directory differs by value from the cached one
(which includes the first frame whenever the declared starting directory is
non-empty) the state is reset to a `directory_stack` holding exactly one
`Directory` with the declared path and the style's resolved column width. -/
theorem fileNavigator_starting_directory_reset
    (sd : Path) (sw : Option ℚ) (st : NavState) :
    (FileNavigator.init_state.starting_directory = ""
      ∧ FileNavigator.init_state.directory_stack = [])
    ∧ (sd ≠ st.starting_directory →
        resetIfNewStart sd (resolveColumnWidth sw) st
          = { st with
                starting_directory := sd
              , directory_stack :=
                  [{ path := sd, column_width := resolveColumnWidth sw }] })
    ∧ (sd = st.starting_directory →
        resetIfNewStart sd (resolveColumnWidth sw) st = st)
    ∧ (sd ≠ "" →
        (resetIfNewStart sd (resolveColumnWidth sw)
            FileNavigator.init_state).directory_stack
          = [{ path := sd, column_width := resolveColumnWidth sw }]) := by
  refine ⟨⟨rfl, rfl⟩, ?_, ?_, ?_⟩
  · intro h
    simp [resetIfNewStart, h]
  · intro h
    simp [resetIfNewStart, h]
  · intro h
    have h' : sd ≠ FileNavigator.init_state.starting_directory := h
    simp [resetIfNewStart, h']

/-- Witness for C4 at a concrete non-empty starting directory on the first
frame. -/
theorem fileNavigator_starting_directory_reset_witness :
    resetIfNewStart "root" (resolveColumnWidth none) FileNavigator.init_state
      = { FileNavigator.init_state with
            starting_directory := "root"
          , directory_stack :=
              [{ path := "root", column_width := resolveColumnWidth none }] } :=
  (fileNavigator_starting_directory_reset "root" none FileNavigator.init_state).2.1
    (by decide)

/-- C9: after `FileNavigator::update` processes any nonempty sequence of
left-button drags on the resize handle at a stack position, the stored column
width is at least three times the resize handle rectangle's width; each drag
sets the width to `max(minimum, previous width + horizontal drag delta)`. -/
theorem resize_drag_min_column_width (ctx : DragCtx) (cw : ℚ)
    (drags : List Drag) (h : drags ≠ []) :
    ctx.resize_rect_w * 3 ≤ (processDrags ctx cw drags).1
    ∧ ∀ (acc : ℚ × ℚ) (d : Drag),
        (dragStep ctx acc d).1 = max (ctx.resize_rect_w * 3) (acc.1 + d.delta_x) := by
  refine ⟨?_, fun acc d => dragStep_width ctx acc d⟩
  cases drags with
  | nil => exact absurd rfl h
  | cons d ds =>
    unfold processDrags
    rw [List.foldl_cons]
    exact foldl_dragStep_width_lb ds ctx _ (dragStep_width_lb ctx (cw, 0) d)

/-- Witness for C9 at a single concrete drag. -/
theorem resize_drag_min_column_width_witness :
    (1 : ℚ) * 3 ≤ (processDrags
      { resize_rect_w := 1, resize_rect_right := 0, rect_right := 0, rect_w := 0 }
      0 [{ delta_x := 0 }]).1 :=
  (resize_drag_min_column_width
    { resize_rect_w := 1, resize_rect_right := 0, rect_right := 0, rect_w := 0 }
    0 [{ delta_x := 0 }] (by simp)).1

/-- C2: across any sequence of `FileNavigator::update` calls starting from
`init_state`'s empty `directory_view_indices`, every generated node index is
allocated at most once (all issued indices pairwise distinct and below the
`Ui`'s monotonic counter), the vector is append-only, and the pair stored at
each stack position is returned unchanged for that position on every later
frame. -/
theorem fileNavigator_indices_allocated_once (ns : List ℕ) (c0 m : ℕ) :
    (flatIndices (allocFrames ns ([], c0)).1).Nodup
    ∧ (∀ x ∈ flatIndices (allocFrames ns ([], c0)).1, x < (allocFrames ns ([], c0)).2)
    ∧ (allocFrames ns ([], c0)).1 <+:
        (allocFrame m (allocFrames ns ([], c0)).1 (allocFrames ns ([], c0)).2).1
    ∧ (∀ i p, (allocFrames ns ([], c0)).1.get? i = some p →
        (allocFrame m (allocFrames ns ([], c0)).1 (allocFrames ns ([], c0)).2).1.get? i
          = some p) := by
  have hinv : IndicesInv (allocFrames ns ([], c0)) := by
    refine allocFrames_preserves_inv ns ([], c0) ⟨List.nodup_nil, ?_⟩
    intro x hx
    simp [flatIndices] at hx
  refine ⟨hinv.1, hinv.2, allocFrame_grows m _ _, ?_⟩
  intro i p hp
  obtain ⟨t, ht⟩ := allocFrame_grows m (allocFrames ns ([], c0)).1 (allocFrames ns ([], c0)).2
  rw [← ht]
  have hlt : i < (allocFrames ns ([], c0)).1.length := by
    by_contra hge
    push_neg at hge
    rw [List.get?_eq_none.mpr hge] at hp
    cases hp
  rw [List.get?_append hlt]
  exact hp

/-- Witness for C2 at a concrete one-frame history. -/
theorem fileNavigator_indices_allocated_once_witness :
    (allocFrame 2 (allocFrames [1] ([], 0)).1 (allocFrames [1] ([], 0)).2).1.get? 0
      = some (0, 1) :=
  (fileNavigator_indices_allocated_once [1] 0 2).2.2.2 0 (0, 1) (by decide)

/-- C5: during resize drags, each drag adds to the frame's scroll amount
exactly the overlap of the dragged column's target width past the width that
keeps its right edge inside the navigator's rectangle (and nothing
otherwise); a scroll request is issued iff the accumulated amount is
positive, and never when no drag overlaps; the applied scroll is the
requested amount clamped to the scrollable range; entering a directory
scrolls by exactly the excess of the total column width over the navigator's
width, and only when that excess is positive. -/
theorem fileNavigator_scroll_minimum_overlap :
    (∀ (ctx : DragCtx) (cw sx : ℚ) (d : Drag),
        (dragStep ctx (cw, sx) d).2
          = sx + max 0 ((cw + d.delta_x)
              - (cw + (ctx.rect_right - ctx.resize_rect_right))))
    ∧ (∀ (ctx : DragCtx) (cw : ℚ) (drags : List Drag) (s : ℚ),
        scrollAfterDrags ctx cw drags = some s → 0 < s)
    ∧ (∀ (ctx : DragCtx) (cw : ℚ) (drags : List Drag),
        (∀ d ∈ drags, d.delta_x ≤ ctx.rect_right - ctx.resize_rect_right) →
        scrollAfterDrags ctx cw drags = none)
    ∧ (∀ (offset lo hi : ℚ), lo ≤ hi →
        lo ≤ scroll_widget offset lo hi ∧ scroll_widget offset lo hi ≤ hi
          ∧ (lo ≤ offset → offset ≤ hi → scroll_widget offset lo hi = offset))
    ∧ (∀ (stack : List Directory) (rect_w s : ℚ),
        enterDirScroll stack rect_w = some s ↔
          (0 < totalColumnWidth stack - rect_w
            ∧ s = totalColumnWidth stack - rect_w)) := by
  refine ⟨?_, ?_, ?_, ?_, ?_⟩
  · intro ctx cw sx d
    have harg : (cw + d.delta_x) - (cw + (ctx.rect_right - ctx.resize_rect_right))
        = d.delta_x - (ctx.rect_right - ctx.resize_rect_right) := by ring
    rw [harg, dragStep_scroll]
  · intro ctx cw drags s h
    by_cases hp : (processDrags ctx cw drags).2 > 0
    · have heq : scrollAfterDrags ctx cw drags = some (processDrags ctx cw drags).2 := by
        simp [scrollAfterDrags, hp]
      rw [heq] at h
      cases h
      exact hp
    · have heq : scrollAfterDrags ctx cw drags = none := by
        simp [scrollAfterDrags, hp]
      rw [heq] at h
      cases h
  · intro ctx cw drags h
    have h0 : (processDrags ctx cw drags).2 = 0 := by
      unfold processDrags
      exact foldl_dragStep_no_overlap drags ctx cw h
    simp [scrollAfterDrags, h0]
  · intro offset lo hi h
    refine ⟨le_min h (le_max_left lo offset), min_le_left hi _, ?_⟩
    intro h1 h2
    unfold scroll_widget
    rw [max_eq_right h1, min_eq_right h2]
  · intro stack rect_w s
    by_cases hp : totalColumnWidth stack - rect_w > 0 <;>
      simp [enterDirScroll, hp, eq_comm]

/-- Witness for C5: a non-overlapping drag issues no scroll request, and an
in-range offset is applied unclamped. -/
theorem fileNavigator_scroll_minimum_overlap_witness :
    scrollAfterDrags
      { resize_rect_w := 5, resize_rect_right := 100, rect_right := 200, rect_w := 300 }
      250 [{ delta_x := 10 }] = none
    ∧ scroll_widget 7 0 10 = 7 := by
  constructor
  · refine fileNavigator_scroll_minimum_overlap.2.2.1
      { resize_rect_w := 5, resize_rect_right := 100, rect_right := 200, rect_w := 300 }
      250 [{ delta_x := 10 }] ?_
    intro d hd
    simp only [List.mem_singleton] at hd
    subst hd
    norm_num
  · exact (fileNavigator_scroll_minimum_overlap.2.2.2.1 7 0 10 (by norm_num)).2.2
      (by norm_num) (by norm_num)

/-- C8: when the `DirectoryView` at stack position `i` emits a `Selection`
event: a selection of exactly one directory path truncates the stack to its
first `i+1` entries and pushes the selected directory with the current column
width (length `i+2`), appending a `ChangeDirectory` event; any other
selection (empty, multiple, or a non-directory) truncates the stack to its
first `i+1` entries with no `ChangeDirectory` emitted; in both cases a
`ChangeSelection` event with the selected paths is appended and stack entries
at positions up to `i` are unchanged. -/
theorem fileNavigator_selection_enters_or_exits
    (is_dir : Path → Bool) (i : ℕ) (column_width : ℚ)
    (stack : List Directory) (events0 : List NavEvent)
    (dvEvents : List DVEvent) (paths : List Path)
    (hi : i < stack.length)
    (hsel : selections dvEvents = [paths]) :
    (∀ p, paths = [p] → is_dir p = true →
        processView is_dir i column_width stack events0 dvEvents
          = (stack.take (i + 1) ++ [{ path := p, column_width := column_width }],
             events0 ++ dvEvents.map dvToNav ++ [NavEvent.ChangeDirectory p])
        ∧ (processView is_dir i column_width stack events0 dvEvents).1.length = i + 2)
    ∧ (∀ p, paths = [p] → is_dir p = false →
        processView is_dir i column_width stack events0 dvEvents
          = (stack.take (i + 1), events0 ++ dvEvents.map dvToNav))
    ∧ (paths.length ≠ 1 →
        processView is_dir i column_width stack events0 dvEvents
          = (stack.take (i + 1), events0 ++ dvEvents.map dvToNav))
    ∧ NavEvent.ChangeSelection paths
        ∈ (processView is_dir i column_width stack events0 dvEvents).2
    ∧ (∀ e ∈ dvEvents.map dvToNav, ∀ q, e ≠ NavEvent.ChangeDirectory q)
    ∧ (∀ j, j ≤ i →
        (processView is_dir i column_width stack events0 dvEvents).1.get? j
          = stack.get? j) := by
  have hact := processEvent_fold_action_single dvEvents is_dir none events0 paths hsel
  have hev := processEvent_fold_events dvEvents is_dir none events0
  have hpop : popN (stack.length - 1 - i) stack = stack.take (i + 1) := by
    rw [popN_eq_take]
    congr 1
    omega
  have hproc : processView is_dir i column_width stack events0 dvEvents
      = applyAction i column_width stack (events0 ++ dvEvents.map dvToNav)
          (some (selectionAction is_dir paths)) := by
    simp only [processView]
    rw [hact, hev]
  refine ⟨?_, ?_, ?_, ?_, ?_, ?_⟩
  · intro p hp hdir
    subst hp
    have hsa : selectionAction is_dir [p] = Action.EnterDir p := by
      simp [selectionAction, hdir]
    have heq : processView is_dir i column_width stack events0 dvEvents
        = (stack.take (i + 1) ++ [{ path := p, column_width := column_width }],
           events0 ++ dvEvents.map dvToNav ++ [NavEvent.ChangeDirectory p]) := by
      rw [hproc, hsa]
      simp only [applyAction]
      rw [hpop]
    refine ⟨heq, ?_⟩
    rw [heq]
    simp only [List.length_append, List.length_take, List.length_singleton]
    omega
  · intro p hp hdir
    subst hp
    have hsa : selectionAction is_dir [p] = Action.ExitDir := by
      simp [selectionAction, hdir]
    rw [hproc, hsa]
    simp only [applyAction]
    rw [hpop]
  · intro hne
    have hsa : selectionAction is_dir paths = Action.ExitDir := by
      rcases paths with _ | ⟨p, _ | ⟨q, rest⟩⟩
      · rfl
      · exact absurd rfl hne
      · rfl
    rw [hproc, hsa]
    simp only [applyAction]
    rw [hpop]
  · have hmem : NavEvent.ChangeSelection paths ∈ dvEvents.map dvToNav := by
      apply mem_selections_changeSelection
      rw [hsel]
      exact List.mem_singleton_self paths
    rw [hproc]
    cases hsa : selectionAction is_dir paths with
    | EnterDir p =>
      simp only [applyAction]
      simp [hmem]
    | ExitDir =>
      simp only [applyAction]
      simp [hmem]
  · intro e he q
    obtain ⟨ev, _, rfl⟩ := List.mem_map.mp he
    exact dvToNav_ne_changeDirectory ev q
  · intro j hj
    have hjlen : j < (stack.take (i + 1)).length := by
      rw [List.length_take]
      omega
    have hgt : (stack.take (i + 1)).get? j = stack.get? j := by
      conv_rhs => rw [← List.take_append_drop (i + 1) stack]
      rw [List.get?_append hjlen]
    rw [hproc]
    cases hsa : selectionAction is_dir paths with
    | EnterDir p =>
      simp only [applyAction]
      rw [hpop, List.get?_append hjlen, hgt]
    | ExitDir =>
      simp only [applyAction]
      rw [hpop, hgt]

/-- Witness for C8: entering a concrete selected directory. -/
theorem fileNavigator_selection_enters_or_exits_witness :
    processView (fun _ => true) 0 7 [{ path := "a", column_width := 1 }] []
        [DVEvent.Selection ["b"]]
      = ([{ path := "a", column_width := 1 }, { path := "b", column_width := 7 }],
         [NavEvent.ChangeSelection ["b"], NavEvent.ChangeDirectory "b"]) :=
  ((fileNavigator_selection_enters_or_exits (fun _ => true) 0 7
      [{ path := "a", column_width := 1 }] [] [DVEvent.Selection ["b"]] ["b"]
      (by decide) rfl).1 "b" rfl rfl).1

end Conrod
